import Mathlib

/-!
Verification of the billing engine (invoice / transaction pipeline).

The data model follows `billy/db/tables/transaction.py` (enums, columns,
relationship orderings).  The API control flow follows
`billy/api/invoice/views.py` (`InvoiceIndexView.post`).  The model-layer
operations (`InvoiceModel.create`, `TransactionModel.create`,
`process_transactions`, `apply_event`, `refund`) are not part of the
source tree given; they are modelled from the specification (sections
4.1-4.4) and marked as such in their doc comments.
-/

namespace Billy

/-- `TransactionType` enum from `tables/transaction.py`:
DEBIT, CREDIT, REFUND, REVERSE. -/
inductive TransactionType where
  | DEBIT
  | CREDIT
  | REFUND
  | REVERSE
deriving DecidableEq, Repr

/-- `TransactionSubmitStatus` enum from `tables/transaction.py`:
STAGED, RETRYING, DONE, FAILED, CANCELED. -/
inductive TransactionSubmitStatus where
  | STAGED
  | RETRYING
  | DONE
  | FAILED
  | CANCELED
deriving DecidableEq, Repr

/-- `TransactionStatus` enum from `tables/transaction.py`:
PENDING, SUCCEEDED, FAILED. -/
inductive TransactionStatus where
  | PENDING
  | SUCCEEDED
  | FAILED
deriving DecidableEq, Repr

/-- The `transaction` table row (`Transaction` in `tables/transaction.py`).
Guids are modelled as naturals; nullable columns as `Option`.
`status` is nullable until the first submission attempt. -/
structure Transaction where
  guid : Nat
  invoice_guid : Nat
  reference_to_guid : Option Nat
  transaction_type : TransactionType
  processor_uri : Option String
  appears_on_statement_as : Option String
  submit_status : TransactionSubmitStatus
  status : Option TransactionStatus
  amount : Int
  funding_instrument_uri : Option String
  created_at : Nat
deriving DecidableEq, Repr

/-- The `transaction_event` table row (`TransactionEvent` in
`tables/transaction.py`): one processor-reported status change.
`occurred_at` comes from the processor clock, `created_at` is local. -/
structure TransactionEvent where
  guid : Nat
  transaction_guid : Nat
  processor_id : String
  status : TransactionStatus
  occurred_at : Nat
  created_at : Nat
deriving DecidableEq, Repr

/-- The `transaction_failure` table row (`TransactionFailure` in
`tables/transaction.py`): one failed submission attempt. -/
structure TransactionFailure where
  guid : Nat
  transaction_guid : Nat
  error_message : Option String
  error_number : Option Int
  error_code : Option String
  created_at : Nat
deriving DecidableEq, Repr

/-- The invoice row: owner customer, amount and the optional descriptive
fields handled by `InvoiceIndexView.post`. -/
structure Invoice where
  guid : Nat
  customer_guid : Nat
  amount : Int
  funding_instrument_uri : Option String
  title : Option String
  external_id : Option String
  appears_on_statement_as : Option String
  created_at : Nat
deriving DecidableEq, Repr

/-- A customer as consumed by the invoice API: owning company and the
deletion flag (`customer.company`, `customer.deleted` in `views.py`). -/
structure Customer where
  guid : Nat
  company_guid : Nat
  deleted : Bool
deriving DecidableEq, Repr

/-- The durable store: the table contents, plus a guid counter and a
clock used for the `default=now_func` columns.  Row lists are kept in
insertion order (insertion order = chronological, per the spec). -/
structure DB where
  customers : List Customer
  invoices : List Invoice
  transactions : List Transaction
  events : List TransactionEvent
  failures : List TransactionFailure
  next_guid : Nat
  now : Nat
deriving DecidableEq, Repr

/-! ## Relationship orderings (`tables/transaction.py`)

The `events` relationship is declared with
`order_by='TransactionEvent.occurred_at.desc(),TransactionEvent.processor_id.desc()'`
(newest first) and the `failures` relationship with
`order_by='TransactionFailure.created_at'` (oldest first).  We model each
relationship as the filter of the table by the owning transaction,
sorted by the declared ordering. -/

/-- `a` comes no later than `b` in the `events` relationship ordering:
later `occurred_at` first, ties broken by `processor_id`, descending. -/
def eventOrder (a b : TransactionEvent) : Prop :=
  b.occurred_at < a.occurred_at ∨
    (b.occurred_at = a.occurred_at ∧ b.processor_id ≤ a.processor_id)

instance : DecidableRel eventOrder := by
  intro a b
  unfold eventOrder
  infer_instance

instance : IsTotal TransactionEvent eventOrder where
  total a b := by
    unfold eventOrder
    rcases Nat.lt_trichotomy b.occurred_at a.occurred_at with h | h | h
    · left; left; exact h
    · rcases le_total b.processor_id a.processor_id with hp | hp
      · left; right; exact ⟨h, hp⟩
      · right; right; exact ⟨h.symm, hp⟩
    · right; left; exact h

instance : IsTrans TransactionEvent eventOrder where
  trans a b c hab hbc := by
    unfold eventOrder at hab hbc ⊢
    rcases hab with h1 | ⟨h1, hp1⟩ <;> rcases hbc with h2 | ⟨h2, hp2⟩
    · left; omega
    · left; omega
    · left; omega
    · right; exact ⟨h2.trans h1, hp2.trans hp1⟩

/-- The `events` relationship of a transaction: all `transaction_event`
rows owned by it, ordered newest first (occurred_at desc, processor_id
desc). -/
def Transaction.eventsOf (db : DB) (t : Transaction) : List TransactionEvent :=
  List.insertionSort eventOrder (db.events.filter (fun e => e.transaction_guid == t.guid))

/-- `a` comes no later than `b` in the `failures` relationship ordering:
ascending `created_at` (oldest first). -/
def failureOrder (a b : TransactionFailure) : Prop :=
  a.created_at ≤ b.created_at

instance : DecidableRel failureOrder := by
  intro a b
  unfold failureOrder
  infer_instance

instance : IsTotal TransactionFailure failureOrder where
  total a b := Nat.le_total a.created_at b.created_at

instance : IsTrans TransactionFailure failureOrder where
  trans _ _ _ hab hbc := Nat.le_trans hab hbc

/-- The `failures` relationship of a transaction: all
`transaction_failure` rows owned by it, ordered by `created_at`
ascending. -/
def Transaction.failuresOf (db : DB) (t : Transaction) : List TransactionFailure :=
  List.insertionSort failureOrder (db.failures.filter (fun f => f.transaction_guid == t.guid))

/-- `Transaction.failure_count` property: `self.failures.count()`,
the number of failure rows owned by the transaction. -/
def Transaction.failure_count (db : DB) (t : Transaction) : Nat :=
  (db.failures.filter (fun f => f.transaction_guid == t.guid)).length

/-- The `transactions` collection of an invoice, in insertion order
(used by `list(invoice.transactions)` in `views.py`). -/
def invoiceTransactions (db : DB) (g : Nat) : List Transaction :=
  db.transactions.filter (fun t => t.invoice_guid == g)

/-! ## Error taxonomy and processor client adapter (spec sections 6, 7) -/

/-- The error taxonomy of section 7 as far as the core raises it. -/
inductive BillyError where
  | ValidationError (msg : String)
  | InvalidOperationError (msg : String)
deriving DecidableEq, Repr

/-- Outcome of the processor adapter's `submit` call (spec section 6):
a processor reference on success, or a Recoverable / Permanent failure
carrying the failure record data. -/
inductive SubmitResult where
  | success (processor_uri : String)
  | recoverable (message : String)
  | permanent (message : String)
deriving DecidableEq, Repr

/-- The Processor Client Adapter contract (spec section 6):
`validate_funding_instrument` returns whether the instrument is
structurally valid (`false` models the raised `InvalidInstrument`), and
`submit` takes the transaction's type, amount, funding instrument URI
and statement descriptor. -/
structure Processor where
  validate_funding_instrument : String → Bool
  submit : TransactionType → Int → String → Option String → SubmitResult

/-! ## Store helpers -/

/-- Update the transaction row with the given guid in place, leaving
every other row unchanged. -/
def updateTransaction (db : DB) (g : Nat) (f : Transaction → Transaction) : DB :=
  { db with transactions := db.transactions.map (fun t => if t.guid = g then f t else t) }

/-- Append a `transaction_failure` row for the given transaction,
stamping it with the store's clock. -/
def appendFailure (db : DB) (g : Nat) (message : String) : DB :=
  { db with
    failures := db.failures ++
      [{ guid := db.next_guid, transaction_guid := g, error_message := some message,
         error_number := none, error_code := none, created_at := db.now }],
    next_guid := db.next_guid + 1 }

/-! ## Transaction Processing Engine (spec section 4.2)

`process_transactions` and `apply_event` are modelled from the spec:
the engine's source module is not in the tree given, only its callers
(`views.py`) and the schema it writes to. -/

/-- Modelled from the spec: one step of
`process_transactions` (section 4.2) on a single transaction.  No
funding instrument means nothing to submit (skip).  Otherwise the
adapter's `submit` is invoked; on success the processor reference is
set, submit_status becomes DONE and settlement PENDING; on a
recoverable error a failure row is appended and submit_status becomes
RETRYING; on a permanent error a failure row is appended and both
submit_status and settlement become FAILED.  (The retry-count bound for
RETRYING is left unspecified by the spec and is not modelled.) -/
def processOne (p : Processor) (db : DB) (t : Transaction) : DB :=
  match t.funding_instrument_uri with
  | none => db
  | some uri =>
    match p.submit t.transaction_type t.amount uri t.appears_on_statement_as with
    | .success puri =>
        updateTransaction db t.guid (fun s =>
          { s with processor_uri := some puri, submit_status := .DONE,
                   status := some .PENDING })
    | .recoverable msg =>
        updateTransaction (appendFailure db t.guid msg) t.guid (fun s =>
          { s with submit_status := .RETRYING })
    | .permanent msg =>
        updateTransaction (appendFailure db t.guid msg) t.guid (fun s =>
          { s with submit_status := .FAILED, status := some .FAILED })

/-- Modelled from the spec: `process_transactions` (section 4.2)
processes each transaction strictly in input order; one transaction's
failure never aborts the rest of the batch. -/
def process_transactions (p : Processor) (db : DB) (ts : List Transaction) : DB :=
  ts.foldl (processOne p) db

/-- The latest processor-clock time among the events already recorded
for a transaction (0 when there are none). -/
def latestOccurredAt (db : DB) (g : Nat) : Nat :=
  ((db.events.filter (fun e => e.transaction_guid == g)).map
    TransactionEvent.occurred_at).foldr max 0

/-- Modelled from the spec: `apply_event` (section 4.2).  Idempotent on
(transaction, processor_event_id): when an event row with the same pair
already exists this is a silent no-op.  Otherwise the event is
recorded, and the transaction's settlement status is updated to the
event's status only when `occurred_at` is not older than the latest
already-recorded event (out-of-order delivery cannot regress status). -/
def apply_event (db : DB) (g : Nat) (pid : String) (st : TransactionStatus)
    (occurred_at : Nat) : DB :=
  if db.events.any (fun e => e.transaction_guid == g && e.processor_id == pid) then
    db
  else
    let stale := occurred_at < latestOccurredAt db g
    let db1 : DB :=
      { db with
        events := db.events ++
          [{ guid := db.next_guid, transaction_guid := g, processor_id := pid,
             status := st, occurred_at := occurred_at, created_at := db.now }],
        next_guid := db.next_guid + 1 }
    if stale then db1
    else updateTransaction db1 g (fun s => { s with status := some st })

/-! ## Invoice Entity & Store (spec section 4.3) -/

/-- Modelled from the spec: `InvoiceModel.create` (section 4.3).  Fails
with `ValidationError` if amount is not positive or the customer is
marked deleted; otherwise persists the invoice row, and, when a funding
instrument is supplied, also persists one DEBIT transaction for the
full amount in STAGED state with no processor reference, in the same
atomic unit.  It never submits anything: it takes no processor
argument.  (Line items and adjustments are descriptive data not needed
by any claim and are not modelled.) -/
def InvoiceModel.create (db : DB) (customer : Customer) (amount : Int)
    (funding_instrument_uri : Option String) (title : Option String)
    (external_id : Option String) (appears_on_statement_as : Option String) :
    Except BillyError (DB × Invoice) :=
  if amount ≤ 0 then
    .error (.ValidationError "Invoice amount should be greater than zero")
  else if customer.deleted then
    .error (.ValidationError "Cannot create an invoice for a deleted customer")
  else
    let inv : Invoice :=
      { guid := db.next_guid, customer_guid := customer.guid, amount := amount,
        funding_instrument_uri := funding_instrument_uri, title := title,
        external_id := external_id,
        appears_on_statement_as := appears_on_statement_as, created_at := db.now }
    let db1 : DB :=
      { db with invoices := db.invoices ++ [inv], next_guid := db.next_guid + 1 }
    match funding_instrument_uri with
    | none => .ok (db1, inv)
    | some uri =>
      let t : Transaction :=
        { guid := db1.next_guid, invoice_guid := inv.guid, reference_to_guid := none,
          transaction_type := .DEBIT, processor_uri := none,
          appears_on_statement_as := appears_on_statement_as,
          submit_status := .STAGED, status := none, amount := amount,
          funding_instrument_uri := some uri, created_at := db.now }
      .ok ({ db1 with transactions := db1.transactions ++ [t],
                      next_guid := db1.next_guid + 1 }, inv)

/-! ## Transaction Entity & Store (spec section 4.1) -/

/-- Modelled from the spec: `TransactionModel.create` (section 4.1).
Fails with `ValidationError` if amount is not positive, or if the type
is REFUND or REVERSE and no reference target is given, or if the
reference target belongs to a different invoice. -/
def TransactionModel.create (db : DB) (invoice : Invoice) (ttype : TransactionType)
    (amount : Int) (funding_instrument_uri : Option String)
    (reference_to : Option Transaction) (appears_on_statement_as : Option String) :
    Except BillyError (DB × Transaction) :=
  if amount ≤ 0 then
    .error (.ValidationError "Transaction amount should be greater than zero")
  else if (ttype == .REFUND || ttype == .REVERSE) && reference_to.isNone then
    .error (.ValidationError "Refund or reverse transaction needs a reference target")
  else if reference_to.any (fun r => r.invoice_guid != invoice.guid) then
    .error (.ValidationError "Reference target belongs to a different invoice")
  else
    let t : Transaction :=
      { guid := db.next_guid, invoice_guid := invoice.guid,
        reference_to_guid := reference_to.map Transaction.guid,
        transaction_type := ttype, processor_uri := none,
        appears_on_statement_as := appears_on_statement_as,
        submit_status := .STAGED, status := none, amount := amount,
        funding_instrument_uri := funding_instrument_uri, created_at := db.now }
    .ok ({ db with transactions := db.transactions ++ [t],
                   next_guid := db.next_guid + 1 }, t)

/-! ## Refund (spec section 4.3) -/

/-- The cumulative refunded amount recorded against one debit: the sum
of the amounts of all REFUND transactions whose reference target is
that debit. -/
def refundedAgainst (db : DB) (g : Nat) : Int :=
  ((db.transactions.filter (fun t =>
      t.transaction_type == TransactionType.REFUND &&
      t.reference_to_guid == some g)).map Transaction.amount).sum

/-- The successfully-settled DEBIT transactions of an invoice, in
chronological (insertion) order. -/
def settledDebits (db : DB) (g : Nat) : List Transaction :=
  db.transactions.filter (fun t =>
    t.invoice_guid == g && t.transaction_type == TransactionType.DEBIT &&
    t.status == some TransactionStatus.SUCCEEDED)

/-- Greedy refund allocation: walk the settled debits oldest first,
taking from each debit the smaller of its remaining refundable amount
and the amount still to allocate. -/
def allocate (db : DB) : List Transaction → Int → List (Transaction × Int)
  | [], _ => []
  | d :: rest, remaining =>
    if remaining ≤ 0 then []
    else
      let av := d.amount - refundedAgainst db d.guid
      if av ≤ 0 then allocate db rest remaining
      else (d, min av remaining) :: allocate db rest (remaining - min av remaining)

/-- Persist one REFUND transaction per allocation, each referencing its
source debit, each STAGED with no processor reference. -/
def mkRefunds (db : DB) (g : Nat) : List (Transaction × Int) → DB × List Transaction
  | [] => (db, [])
  | (d, amt) :: rest =>
    let t : Transaction :=
      { guid := db.next_guid, invoice_guid := g, reference_to_guid := some d.guid,
        transaction_type := .REFUND, processor_uri := none,
        appears_on_statement_as := none, submit_status := .STAGED, status := none,
        amount := amt, funding_instrument_uri := d.funding_instrument_uri,
        created_at := db.now }
    let res := mkRefunds
      { db with transactions := db.transactions ++ [t], next_guid := db.next_guid + 1 }
      g rest
    (res.1, t :: res.2)

/-- Modelled from the spec: `InvoiceModel.refund` (section 4.3).  Fails
with `ValidationError` if the requested amount exceeds the sum of
successfully-settled DEBIT amounts minus already-refunded amounts on
the invoice; otherwise creates one REFUND transaction per eligible
originating debit, consuming greedily from the oldest settled debit
first, each referencing its source debit. -/
def InvoiceModel.refund (db : DB) (g : Nat) (amount : Int) :
    Except BillyError (DB × List Transaction) :=
  if amount ≤ 0 then
    .error (.ValidationError "Refund amount should be greater than zero")
  else
    let debits := settledDebits db g
    let available := (debits.map (fun d => d.amount - refundedAgainst db d.guid)).sum
    if available < amount then
      .error (.ValidationError "Refund amount exceeds net settled amount")
    else
      .ok (mkRefunds db g (allocate db debits amount))

/-! ## The invoice-creation API operation (`views.py`, `InvoiceIndexView.post`)

This is the two-phase flow of the source: form-field normalization
(empty strings become None), customer lookup, company authorization,
deleted-customer rejection, the early funding-instrument validation
probe, then phase (a) — the atomic unit that persists the invoice (and
staged DEBIT) rows — and phase (b) — a separate atomic unit that runs
`process_transactions` on `list(invoice.transactions)` only when a
funding instrument was supplied. -/

/-- The form fields of `InvoiceCreateForm` consumed by the view (items
and adjustments are not modelled). -/
structure InvoiceCreateRequest where
  customer_guid : Nat
  amount : Int
  funding_instrument_uri : Option String
  title : Option String
  external_id : Option String
  appears_on_statement_as : Option String
deriving DecidableEq, Repr

/-- The view's possible responses: the created invoice, HTTPForbidden,
HTTPBadRequest (deleted customer), the propagated InvalidInstrument
failure of the validation probe, a missing customer, or a propagated
model-layer error from phase (a). -/
inductive PostResponse where
  | created (invoice_guid : Nat)
  | forbidden
  | badRequest
  | invalidInstrument
  | notFound
  | validationFailed (e : BillyError)
deriving DecidableEq, Repr

/-- `if not x: x = None` on an optional form field: both a missing field
and an empty string normalize to None. -/
def noneIfEmpty : Option String → Option String
  | none => none
  | some s => if s = "" then none else some s

/-- `InvoiceIndexView.post` from `views.py`: normalize the optional
string fields, look up the customer, reject cross-company access and
deleted customers, probe the funding instrument against the processor
before any row is written, then run phase (a) (`InvoiceModel.create`
inside its own atomic unit) and, only when a funding instrument was
supplied and transactions exist, phase (b) (`process_transactions` in a
second, independent atomic unit). -/
def invoicePost (db : DB) (proc : Processor) (company : Nat)
    (req : InvoiceCreateRequest) : DB × PostResponse :=
  let fiu := noneIfEmpty req.funding_instrument_uri
  let title := noneIfEmpty req.title
  let ext := noneIfEmpty req.external_id
  let aosa := noneIfEmpty req.appears_on_statement_as
  match db.customers.find? (fun c => c.guid == req.customer_guid) with
  | none => (db, .notFound)
  | some customer =>
    if customer.company_guid ≠ company then (db, .forbidden)
    else if customer.deleted then (db, .badRequest)
    else
      let probeOk :=
        match fiu with
        | none => true
        | some uri => proc.validate_funding_instrument uri
      if probeOk = false then (db, .invalidInstrument)
      else
        match InvoiceModel.create db customer req.amount fiu title ext aosa with
        | .error e => (db, .validationFailed e)
        | .ok (db1, inv) =>
          match fiu with
          | none => (db1, .created inv.guid)
          | some _ =>
            let ts := invoiceTransactions db1 inv.guid
            if ts.isEmpty then (db1, .created inv.guid)
            else (process_transactions proc db1 ts, .created inv.guid)

/-! ## The (transaction, processor event id) uniqueness guard

`transaction_event` carries
`UniqueConstraint('transaction_guid', 'processor_id')` in the schema;
`apply_event` preserves it by the duplicate check. -/

/-- Number of recorded events with the given
(transaction, processor event id) pair. -/
def eventPairCount (db : DB) (g : Nat) (pid : String) : Nat :=
  (db.events.filter (fun e => e.transaction_guid == g && e.processor_id == pid)).length

/-- The schema's uniqueness constraint on
(transaction_guid, processor_id): each pair appears at most once. -/
def eventsUnique (db : DB) : Prop :=
  ∀ g pid, eventPairCount db g pid ≤ 1

/-- The DEBIT transaction row staged by `InvoiceModel.create` for
invoice `g` when a funding instrument is supplied. -/
def stagedRow (db : DB) (g : Nat) (aosa : Option String) (amount : Int)
    (uri : String) : Transaction :=
  { guid := db.next_guid + 1, invoice_guid := g, reference_to_guid := none,
    transaction_type := .DEBIT, processor_uri := none,
    appears_on_statement_as := aosa, submit_status := .STAGED, status := none,
    amount := amount, funding_instrument_uri := some uri, created_at := db.now }

/-! ## Refund-bound invariant -/

/-- Sum of the amounts an allocation assigns against the debit with
guid `gg`. -/
def targetSum (allocs : List (Transaction × Int)) (gg : Nat) : Int :=
  ((allocs.filter (fun pr => pr.1.guid == gg)).map Prod.snd).sum

/-- The cumulative refunded amount recorded against debit `g` within a
transaction list (`refundedAgainst` is this sum over the whole store). -/
def refundSum (l : List Transaction) (g : Nat) : Int :=
  ((l.filter (fun t => t.transaction_type == TransactionType.REFUND &&
      t.reference_to_guid == some g)).map Transaction.amount).sum

/-- The refund bound: the cumulative refunded amount recorded against
any settled debit never exceeds that debit's settled amount. -/
def refundBoundInvariant (db : DB) : Prop :=
  ∀ d ∈ db.transactions, d.transaction_type = TransactionType.DEBIT →
    d.status = some TransactionStatus.SUCCEEDED →
    refundedAgainst db d.guid ≤ d.amount

/-- Transaction guids are unique in the store (`guid` is the primary
key of the `transaction` table). -/
def guidsNodup (db : DB) : Prop := (db.transactions.map Transaction.guid).Nodup

instance (db : DB) : Decidable (guidsNodup db) := by
  unfold guidsNodup
  infer_instance

instance (db : DB) : Decidable (refundBoundInvariant db) := by
  unfold refundBoundInvariant
  infer_instance

/-! ## Concrete stores, processors and requests for the witness and
counterexample theorems -/

/-- A live customer of company 7. -/
def custW : Customer := { guid := 1, company_guid := 7, deleted := false }

/-- A deleted customer of company 7. -/
def custWdel : Customer := { guid := 2, company_guid := 7, deleted := true }

/-- A store holding the two customers and nothing else. -/
def dbW0 : DB :=
  { customers := [custW, custWdel], invoices := [], transactions := [],
    events := [], failures := [], next_guid := 10, now := 3 }

/-- An invoice row for customer 1. -/
def invW : Invoice :=
  { guid := 3, customer_guid := 1, amount := 500, funding_instrument_uri := none,
    title := none, external_id := none, appears_on_statement_as := none,
    created_at := 0 }

/-- A submitted DEBIT transaction awaiting settlement. -/
def txW : Transaction :=
  { guid := 4, invoice_guid := 3, reference_to_guid := none,
    transaction_type := .DEBIT, processor_uri := some "/v1/debits/9",
    appears_on_statement_as := none, submit_status := .DONE,
    status := some .PENDING, amount := 1000, funding_instrument_uri := none,
    created_at := 0 }

/-- Store with the pending debit, no events yet. -/
def dbEv : DB :=
  { customers := [custW], invoices := [invW], transactions := [txW],
    events := [], failures := [], next_guid := 20, now := 5 }

/-- A settled DEBIT of 1000 on invoice 3. -/
def debW : Transaction :=
  { guid := 5, invoice_guid := 3, reference_to_guid := none,
    transaction_type := .DEBIT, processor_uri := some "/v1/debits/5",
    appears_on_statement_as := none, submit_status := .DONE,
    status := some .SUCCEEDED, amount := 1000, funding_instrument_uri := none,
    created_at := 0 }

/-- An earlier partial REFUND of 400 already referencing debit 5. -/
def refW : Transaction :=
  { guid := 6, invoice_guid := 3, reference_to_guid := some 5,
    transaction_type := .REFUND, processor_uri := none,
    appears_on_statement_as := none, submit_status := .DONE,
    status := some .SUCCEEDED, amount := 400, funding_instrument_uri := none,
    created_at := 1 }

/-- Store after one settled debit and one earlier partial refund. -/
def dbRef : DB :=
  { customers := [custW], invoices := [invW], transactions := [debW, refW],
    events := [], failures := [], next_guid := 9, now := 4 }

/-- The second partial REFUND, of 300, created by `refund dbRef 3 300`. -/
def refNewW : Transaction :=
  { guid := 9, invoice_guid := 3, reference_to_guid := some 5,
    transaction_type := .REFUND, processor_uri := none,
    appears_on_statement_as := none, submit_status := .STAGED, status := none,
    amount := 300, funding_instrument_uri := none, created_at := 4 }

/-- The store after the second partial refund. -/
def dbRefFin : DB :=
  { dbRef with transactions := [debW, refW, refNewW], next_guid := 10 }

/-- A processor whose every submission is declined with a permanent
error. -/
def procPerm : Processor :=
  { validate_funding_instrument := fun _ => true,
    submit := fun _ _ _ _ => .permanent "Card declined" }

/-- A processor that rejects every funding instrument at validation. -/
def procBad : Processor :=
  { validate_funding_instrument := fun _ => false,
    submit := fun _ _ _ _ => .success "/v1/ok" }

/-- An invoice-creation request for the live customer with a funding
instrument. -/
def reqW : InvoiceCreateRequest :=
  { customer_guid := 1, amount := 500, funding_instrument_uri := some "/cards/1",
    title := none, external_id := none, appears_on_statement_as := none }

/-- An invoice-creation request for the deleted customer. -/
def reqDel : InvoiceCreateRequest :=
  { customer_guid := 2, amount := 500, funding_instrument_uri := some "/cards/1",
    title := none, external_id := none, appears_on_statement_as := none }

/-- The store produced by posting `reqW` against the always-declining
processor. -/
def dbPermFin : DB := (invoicePost dbW0 procPerm 7 reqW).1

/-! ## Frame lemmas for the Processing Engine -/

/-- The identity-and-intent fields of a transaction row: everything
except the submission fields (`processor_uri`, `submit_status`,
`status`) that the Processing Engine is allowed to write. -/
def Transaction.core (t : Transaction) :
    Nat × Nat × Option Nat × TransactionType × Int × Option String × Option String × Nat :=
  (t.guid, t.invoice_guid, t.reference_to_guid, t.transaction_type, t.amount,
   t.funding_instrument_uri, t.appears_on_statement_as, t.created_at)

theorem processOne_frame (p : Processor) (db : DB) (t : Transaction) :
    ((processOne p db t).transactions).map Transaction.core =
      db.transactions.map Transaction.core ∧
    (processOne p db t).invoices = db.invoices ∧
    (processOne p db t).customers = db.customers ∧
    (processOne p db t).events = db.events ∧
    ∃ fs, (processOne p db t).failures = db.failures ++ fs := by
  unfold processOne
  cases hf : t.funding_instrument_uri with
  | none => exact ⟨rfl, rfl, rfl, rfl, [], by simp⟩
  | some uri =>
    dsimp only
    cases hs : p.submit t.transaction_type t.amount uri t.appears_on_statement_as with
    | success puri =>
      refine ⟨?_, rfl, rfl, rfl, [], by simp [updateTransaction]⟩
      simp only [updateTransaction, List.map_map]
      apply List.map_congr_left
      intro a _
      by_cases h : a.guid = t.guid <;> simp [h, Transaction.core]
    | recoverable msg =>
      refine ⟨?_, rfl, rfl, rfl, ?_⟩
      · simp only [updateTransaction, appendFailure, List.map_map]
        apply List.map_congr_left
        intro a _
        by_cases h : a.guid = t.guid <;> simp [h, Transaction.core]
      · exact ⟨_, rfl⟩
    | permanent msg =>
      refine ⟨?_, rfl, rfl, rfl, ?_⟩
      · simp only [updateTransaction, appendFailure, List.map_map]
        apply List.map_congr_left
        intro a _
        by_cases h : a.guid = t.guid <;> simp [h, Transaction.core]
      · exact ⟨_, rfl⟩

theorem process_transactions_frame (p : Processor) (ts : List Transaction) :
    ∀ db : DB,
      ((process_transactions p db ts).transactions).map Transaction.core =
        db.transactions.map Transaction.core ∧
      (process_transactions p db ts).invoices = db.invoices ∧
      (process_transactions p db ts).customers = db.customers ∧
      (process_transactions p db ts).events = db.events ∧
      ∃ fs, (process_transactions p db ts).failures = db.failures ++ fs := by
  induction ts with
  | nil => intro db; exact ⟨rfl, rfl, rfl, rfl, [], by simp [process_transactions]⟩
  | cons t rest ih =>
    intro db
    have hstep := processOne_frame p db t
    have htail := ih (processOne p db t)
    have hfold : process_transactions p db (t :: rest) =
        process_transactions p (processOne p db t) rest := rfl
    rw [hfold]
    obtain ⟨ha1, ha2, ha3, ha4, fs1, ha5⟩ := hstep
    obtain ⟨hb1, hb2, hb3, hb4, fs2, hb5⟩ := htail
    exact ⟨hb1.trans ha1, hb2.trans ha2, hb3.trans ha3, hb4.trans ha4,
      fs1 ++ fs2, by rw [hb5, ha5, List.append_assoc]⟩

theorem apply_event_frame (db : DB) (g : Nat) (pid : String)
    (st : TransactionStatus) (occ : Nat) :
    ((apply_event db g pid st occ).transactions).map Transaction.core =
      db.transactions.map Transaction.core ∧
    (apply_event db g pid st occ).invoices = db.invoices ∧
    (apply_event db g pid st occ).customers = db.customers ∧
    (apply_event db g pid st occ).failures = db.failures ∧
    ∃ es, (apply_event db g pid st occ).events = db.events ++ es := by
  unfold apply_event
  split
  · exact ⟨rfl, rfl, rfl, rfl, [], by simp⟩
  · dsimp only
    split
    · exact ⟨rfl, rfl, rfl, rfl, ⟨_, rfl⟩⟩
    · refine ⟨?_, rfl, rfl, rfl, ⟨_, rfl⟩⟩
      simp only [updateTransaction, List.map_map]
      apply List.map_congr_left
      intro a _
      by_cases h : a.guid = g <;> simp [h, Transaction.core]

/-- Two transaction lists with the same `core` images agree on any
function of the core fields. -/
theorem map_eq_of_core {β : Type} (f : Transaction → β)
    (hf : ∀ a b : Transaction, Transaction.core a = Transaction.core b → f a = f b) :
    ∀ (l1 l2 : List Transaction),
      l1.map Transaction.core = l2.map Transaction.core → l1.map f = l2.map f
  | [], [], _ => rfl
  | [], _ :: _, h => by simp at h
  | _ :: _, [], h => by simp at h
  | a :: l1, b :: l2, h => by
    simp only [List.map_cons, List.cons.injEq] at h ⊢
    exact ⟨hf a b h.1, map_eq_of_core f hf l1 l2 h.2⟩

/-- C8: for every transaction, iterating its TransactionEvents (the
`events` relationship) yields them ordered by occurrence time
(processor clock) newest first, with ties on occurrence time broken by
the processor-assigned event id; the iteration is a permutation of all
recorded events of the transaction, and contains only its events. -/
theorem events_iteration_newest_first (db : DB) (t : Transaction) :
    (Transaction.eventsOf db t).Pairwise (fun a b =>
      b.occurred_at < a.occurred_at ∨
        (b.occurred_at = a.occurred_at ∧ b.processor_id ≤ a.processor_id)) ∧
    List.Perm (Transaction.eventsOf db t)
      (db.events.filter (fun e => e.transaction_guid == t.guid)) ∧
    ∀ e ∈ Transaction.eventsOf db t, e.transaction_guid = t.guid := by
  unfold Transaction.eventsOf
  refine ⟨List.sorted_insertionSort eventOrder _, List.perm_insertionSort eventOrder _, ?_⟩
  intro e he
  have hmem := (List.perm_insertionSort eventOrder
    (db.events.filter (fun e => e.transaction_guid == t.guid))).mem_iff.mp he
  have hp := List.of_mem_filter hmem
  simpa using hp

/-- C9: for every transaction, its TransactionFailures (the `failures`
relationship) are iterated oldest first by creation time and are a
permutation of all its recorded failure rows; `failure_count` equals
the number of recorded failure rows; the Processing Engine only ever
appends to the failure table, and neither processing (which appends
failures) nor `apply_event` (which appends events) changes any
transaction's amount or type. -/
theorem failures_append_only_oldest_first (db : DB) (t : Transaction) (p : Processor)
    (ts : List Transaction) (g : Nat) (pid : String) (st : TransactionStatus)
    (occ : Nat) :
    (Transaction.failuresOf db t).Pairwise (fun a b => a.created_at ≤ b.created_at) ∧
    List.Perm (Transaction.failuresOf db t)
      (db.failures.filter (fun f => f.transaction_guid == t.guid)) ∧
    Transaction.failure_count db t = (Transaction.failuresOf db t).length ∧
    (∃ fs, (process_transactions p db ts).failures = db.failures ++ fs) ∧
    ((process_transactions p db ts).transactions).map
        (fun s => (s.guid, s.amount, s.transaction_type)) =
      db.transactions.map (fun s => (s.guid, s.amount, s.transaction_type)) ∧
    ((apply_event db g pid st occ).transactions).map
        (fun s => (s.guid, s.amount, s.transaction_type)) =
      db.transactions.map (fun s => (s.guid, s.amount, s.transaction_type)) := by
  have hproj : ∀ a b : Transaction, Transaction.core a = Transaction.core b →
      (a.guid, a.amount, a.transaction_type) = (b.guid, b.amount, b.transaction_type) := by
    intro a b h
    simp only [Transaction.core, Prod.mk.injEq] at h
    obtain ⟨h1, h2, h3, h4, h5, h6, h7, h8⟩ := h
    simp [h1, h4, h5]
  refine ⟨List.sorted_insertionSort failureOrder _, List.perm_insertionSort failureOrder _,
    ?_, (process_transactions_frame p ts db).2.2.2.2,
    map_eq_of_core _ hproj _ _ (process_transactions_frame p ts db).1,
    map_eq_of_core _ hproj _ _ (apply_event_frame db g pid st occ).1⟩
  exact ((List.perm_insertionSort failureOrder _).length_eq).symm

/-! ## Idempotency of apply_event -/

theorem apply_event_of_dup (db : DB) (g : Nat) (pid : String)
    (st : TransactionStatus) (occ : Nat)
    (h : db.events.any (fun e => e.transaction_guid == g && e.processor_id == pid) = true) :
    apply_event db g pid st occ = db := by
  unfold apply_event
  rw [if_pos h]

theorem apply_event_events_of_new (db : DB) (g : Nat) (pid : String)
    (st : TransactionStatus) (occ : Nat)
    (h : db.events.any (fun e => e.transaction_guid == g && e.processor_id == pid) = false) :
    (apply_event db g pid st occ).events = db.events ++
      [{ guid := db.next_guid, transaction_guid := g, processor_id := pid,
         status := st, occurred_at := occ, created_at := db.now }] := by
  unfold apply_event
  rw [if_neg (by simp [h])]
  dsimp only
  split <;> simp [updateTransaction]

/-- C3: `apply_event` is idempotent on the (transaction, processor event
id) pair.  If the uniqueness constraint of the `transaction_event`
table holds, then after applying an event the second application of the
same pair is a complete no-op (the store is unchanged), exactly one
event row for that pair is recorded, and the uniqueness constraint
still holds. -/
theorem apply_event_idempotent (db : DB) (g : Nat) (pid : String)
    (st : TransactionStatus) (occ : Nat) (h : eventsUnique db) :
    apply_event (apply_event db g pid st occ) g pid st occ = apply_event db g pid st occ ∧
    eventPairCount (apply_event db g pid st occ) g pid = 1 ∧
    eventsUnique (apply_event db g pid st occ) := by
  by_cases hdup : db.events.any
      (fun e => e.transaction_guid == g && e.processor_id == pid) = true
  · have heq := apply_event_of_dup db g pid st occ hdup
    refine ⟨by rw [heq, heq], ?_, by rw [heq]; exact h⟩
    rw [heq]
    have h1 : 0 < eventPairCount db g pid := by
      obtain ⟨e, he, hpe⟩ := List.any_eq_true.mp hdup
      exact List.length_pos.mpr
        (List.ne_nil_of_mem (List.mem_filter.mpr ⟨he, hpe⟩))
    have h2 := h g pid
    omega
  · have hfalse : db.events.any
        (fun e => e.transaction_guid == g && e.processor_id == pid) = false := by
      cases hb : db.events.any
          (fun e => e.transaction_guid == g && e.processor_id == pid) with
      | false => rfl
      | true => exact absurd hb hdup
    have hev := apply_event_events_of_new db g pid st occ hfalse
    have hnil : db.events.filter
        (fun e => e.transaction_guid == g && e.processor_id == pid) = [] := by
      rw [List.filter_eq_nil_iff]
      rw [List.any_eq_false] at hfalse
      exact hfalse
    refine ⟨?_, ?_, ?_⟩
    · apply apply_event_of_dup
      rw [hev, List.any_append]
      simp
    · unfold eventPairCount
      rw [hev, List.filter_append, hnil]
      simp
    · intro g2 pid2
      unfold eventPairCount
      rw [hev, List.filter_append, List.length_append]
      have hbase := h g2 pid2
      unfold eventPairCount at hbase
      by_cases hsame : g2 = g ∧ pid2 = pid
      · obtain ⟨hg, hp⟩ := hsame
        subst hg hp
        rw [hnil]
        simp
      · have : (List.filter
            (fun e => e.transaction_guid == g2 && e.processor_id == pid2)
            [{ guid := db.next_guid, transaction_guid := g, processor_id := pid,
               status := st, occurred_at := occ, created_at := db.now }]) =
            ([] : List TransactionEvent) := by
          rw [List.filter_eq_nil_iff]
          intro e he
          simp only [List.mem_singleton] at he
          subst he
          simp only [Bool.not_eq_true, Bool.and_eq_false_iff]
          by_cases hg : g2 = g

          · subst hg
            have hp : ¬ pid2 = pid := fun hp => hsame ⟨rfl, hp⟩
            right
            simp [beq_eq_false_iff_ne]
            intro hcontra
            exact hp hcontra.symm
          · left
            simp [beq_eq_false_iff_ne]
            intro hcontra
            exact hg hcontra.symm
        rw [this]
        simpa using hbase

/-- Witness for the idempotency of `apply_event` at a concrete store:
store `dbEv` has no events, so the uniqueness constraint holds, and the
conclusion is evaluated at transaction 4 and processor event "EV_X". -/
theorem apply_event_idempotent_witness :
    eventsUnique dbEv ∧
    (apply_event (apply_event dbEv 4 "EV_X" .SUCCEEDED 8) 4 "EV_X" .SUCCEEDED 8 =
        apply_event dbEv 4 "EV_X" .SUCCEEDED 8 ∧
      eventPairCount (apply_event dbEv 4 "EV_X" .SUCCEEDED 8) 4 "EV_X" = 1 ∧
      eventsUnique (apply_event dbEv 4 "EV_X" .SUCCEEDED 8)) :=
  ⟨fun g pid => by simp [eventPairCount, dbEv],
   apply_event_idempotent dbEv 4 "EV_X" .SUCCEEDED 8
     (fun g pid => by simp [eventPairCount, dbEv])⟩

/-! ## Amount validation at creation -/

/-- C2: invoice creation and transaction creation fail with
`ValidationError` for every amount ≤ 0 (returning an error and no new
store); for amount > 0, with the other preconditions met (customer not
deleted; a same-invoice reference target present when the type needs
one), they succeed. -/
theorem create_amount_validation (db : DB) (customer : Customer) (amount : Int)
    (fiu title ext aosa : Option String) (invoice : Invoice)
    (ttype : TransactionType) (rfiu : Option String)
    (refto : Option Transaction) (raosa : Option String) :
    (amount ≤ 0 →
      (∃ m, InvoiceModel.create db customer amount fiu title ext aosa =
        .error (.ValidationError m)) ∧
      (∃ m, TransactionModel.create db invoice ttype amount rfiu refto raosa =
        .error (.ValidationError m))) ∧
    (0 < amount → customer.deleted = false →
      ∃ r, InvoiceModel.create db customer amount fiu title ext aosa = .ok r) ∧
    (0 < amount →
      ((ttype = .REFUND ∨ ttype = .REVERSE) → refto.isSome) →
      (∀ r ∈ refto, r.invoice_guid = invoice.guid) →
      ∃ r, TransactionModel.create db invoice ttype amount rfiu refto raosa = .ok r) := by
  refine ⟨?_, ?_, ?_⟩
  · intro hle
    constructor
    · exact ⟨_, by unfold InvoiceModel.create; rw [if_pos hle]⟩
    · exact ⟨_, by unfold TransactionModel.create; rw [if_pos hle]⟩
  · intro hpos hdel
    unfold InvoiceModel.create
    rw [if_neg (by omega), if_neg (by simp [hdel])]
    cases fiu <;> exact ⟨_, rfl⟩
  · intro hpos href hrinv
    unfold TransactionModel.create
    rw [if_neg (by omega)]
    have h2 : ¬(((ttype == TransactionType.REFUND || ttype == TransactionType.REVERSE) &&
        refto.isNone) = true) := by
      cases refto with
      | some r => simp
      | none =>
        simp only [Option.isNone_none, Bool.and_true]
        intro hcon
        have htt : ttype = .REFUND ∨ ttype = .REVERSE := by
          rcases (Bool.or_eq_true _ _).mp hcon with hb | hb
          · exact Or.inl (by exact beq_iff_eq.mp hb)
          · exact Or.inr (by exact beq_iff_eq.mp hb)
        have h4 := href htt
        simp at h4
    have h3 : ¬(refto.any (fun r => r.invoice_guid != invoice.guid) = true) := by
      cases refto with
      | none => simp
      | some r =>
        have hr := hrinv r rfl
        simp [hr]
    rw [if_neg h2, if_neg h3]
    exact ⟨_, rfl⟩

/-- Witness for the amount validation: amount 0 is rejected with
`ValidationError` by both creations, amount 500 is accepted by both. -/
theorem create_amount_validation_witness :
    (∃ m, InvoiceModel.create dbW0 custW 0 none none none none =
      .error (.ValidationError m)) ∧
    (∃ m, TransactionModel.create dbW0 invW .DEBIT 0 none none none =
      .error (.ValidationError m)) ∧
    (∃ r, InvoiceModel.create dbW0 custW 500 none none none none = .ok r) ∧
    (∃ r, TransactionModel.create dbW0 invW .DEBIT 500 none none none = .ok r) :=
  ⟨((create_amount_validation dbW0 custW 0 none none none none invW .DEBIT none
      none none).1 (by decide)).1,
   ((create_amount_validation dbW0 custW 0 none none none none invW .DEBIT none
      none none).1 (by decide)).2,
   (create_amount_validation dbW0 custW 500 none none none none invW .DEBIT none
      none none).2.1 (by decide) rfl,
   (create_amount_validation dbW0 custW 500 none none none none invW .DEBIT none
      none none).2.2 (by decide) (by decide) (by simp)⟩

/-! ## Staged DEBIT at invoice creation -/

/-- C4: creating an invoice with a funding instrument persists, in the
same atomic unit, exactly one DEBIT transaction referencing the new
invoice, for the full invoice amount, in STAGED submit state, with no
processor reference and no settlement status; creation without a
funding instrument persists no transaction.  `InvoiceModel.create`
takes no processor, so no submission step can run during creation. -/
theorem create_with_funding_stages_one_debit (db : DB) (customer : Customer)
    (amount : Int) (uri : String) (title ext aosa : Option String)
    (hpos : 0 < amount) (hdel : customer.deleted = false) :
    (∃ db2 inv, InvoiceModel.create db customer amount (some uri) title ext aosa =
        .ok (db2, inv) ∧
      inv.guid = db.next_guid ∧ inv.amount = amount ∧
      db2.transactions = db.transactions ++
        [{ guid := db.next_guid + 1, invoice_guid := inv.guid,
           reference_to_guid := none, transaction_type := .DEBIT,
           processor_uri := none, appears_on_statement_as := aosa,
           submit_status := .STAGED, status := none, amount := amount,
           funding_instrument_uri := some uri, created_at := db.now }]) ∧
    (∃ db2 inv, InvoiceModel.create db customer amount none title ext aosa =
        .ok (db2, inv) ∧ db2.transactions = db.transactions) := by
  have hni : ¬(amount ≤ 0) := by omega
  constructor
  · unfold InvoiceModel.create
    simp only [hni, hdel, Bool.false_eq_true, if_false]
    exact ⟨_, _, rfl, rfl, rfl, rfl⟩
  · unfold InvoiceModel.create
    simp only [hni, hdel, Bool.false_eq_true, if_false]
    exact ⟨_, _, rfl, rfl⟩

/-- Witness for the staged-DEBIT property at a concrete store. -/
theorem create_with_funding_stages_one_debit_witness :
    (0:Int) < 500 ∧ custW.deleted = false ∧
    ((∃ db2 inv, InvoiceModel.create dbW0 custW 500 (some "/cards/1") none none none =
        .ok (db2, inv) ∧
      inv.guid = dbW0.next_guid ∧ inv.amount = 500 ∧
      db2.transactions = dbW0.transactions ++
        [{ guid := dbW0.next_guid + 1, invoice_guid := inv.guid,
           reference_to_guid := none, transaction_type := .DEBIT,
           processor_uri := none, appears_on_statement_as := none,
           submit_status := .STAGED, status := none, amount := 500,
           funding_instrument_uri := some "/cards/1", created_at := dbW0.now }]) ∧
    (∃ db2 inv, InvoiceModel.create dbW0 custW 500 none none none none =
        .ok (db2, inv) ∧ db2.transactions = dbW0.transactions)) :=
  ⟨by decide, rfl,
   create_with_funding_stages_one_debit dbW0 custW 500 "/cards/1" none none none
     (by decide) rfl⟩

/-! ## The invoice-creation view: probe, authorization, normalization -/

theorem create_none_transactions (db : DB) (c : Customer) (amount : Int)
    (title ext aosa : Option String) (db2 : DB) (inv : Invoice)
    (h : InvoiceModel.create db c amount none title ext aosa = .ok (db2, inv)) :
    db2.transactions = db.transactions := by
  unfold InvoiceModel.create at h
  by_cases h1 : amount ≤ 0
  · rw [if_pos h1] at h; cases h
  · rw [if_neg h1] at h
    by_cases h2 : c.deleted = true
    · rw [if_pos h2] at h; cases h
    · rw [if_neg h2] at h
      cases h
      rfl

/-- C5: when a funding instrument is supplied, the validation probe
against the processor client adapter runs before phase (a); if the
probe fails the operation aborts with the propagated error and the
store is returned unchanged — no invoice row and no transaction row is
ever written. -/
theorem invoice_post_probe_aborts_before_rows (db : DB) (proc : Processor)
    (company : Nat) (req : InvoiceCreateRequest) (customer : Customer) (uri : String)
    (hc : db.customers.find? (fun c => c.guid == req.customer_guid) = some customer)
    (hcomp : customer.company_guid = company)
    (hdel : customer.deleted = false)
    (huri : noneIfEmpty req.funding_instrument_uri = some uri)
    (hval : proc.validate_funding_instrument uri = false) :
    invoicePost db proc company req = (db, .invalidInstrument) := by
  unfold invoicePost
  rw [hc]
  simp [hcomp, hdel, huri, hval]

/-- Witness for the failing validation probe at a concrete store. -/
theorem invoice_post_probe_aborts_before_rows_witness :
    dbW0.customers.find? (fun c => c.guid == reqW.customer_guid) = some custW ∧
    custW.company_guid = 7 ∧ custW.deleted = false ∧
    noneIfEmpty reqW.funding_instrument_uri = some "/cards/1" ∧
    procBad.validate_funding_instrument "/cards/1" = false ∧
    invoicePost dbW0 procBad 7 reqW = (dbW0, .invalidInstrument) :=
  ⟨by decide, rfl, rfl, by decide, rfl,
   invoice_post_probe_aborts_before_rows dbW0 procBad 7 reqW custW "/cards/1"
     (by decide) rfl rfl (by decide) rfl⟩

/-- C6: invoice creation for a deleted customer fails and writes no
state regardless of the other request fields: the view returns
HTTPBadRequest before any row is written, and the model layer rejects
every creation for a deleted customer with ValidationError. -/
theorem invoice_post_deleted_customer_rejected (db : DB) (proc : Processor)
    (company : Nat) (req : InvoiceCreateRequest) (customer : Customer)
    (hc : db.customers.find? (fun c => c.guid == req.customer_guid) = some customer)
    (hcomp : customer.company_guid = company)
    (hdel : customer.deleted = true) :
    invoicePost db proc company req = (db, .badRequest) ∧
    ∀ (db2 : DB) (amount : Int) (fiu title ext aosa : Option String),
      ∃ m, InvoiceModel.create db2 customer amount fiu title ext aosa =
        .error (.ValidationError m) := by
  constructor
  · unfold invoicePost
    rw [hc]
    simp [hcomp, hdel]
  · intro db2 amount fiu title ext aosa
    by_cases hle : amount ≤ 0
    · exact ⟨_, by unfold InvoiceModel.create; rw [if_pos hle]⟩
    · exact ⟨_, by unfold InvoiceModel.create; rw [if_neg hle, if_pos hdel]⟩

/-- Witness for the deleted-customer rejection at a concrete store. -/
theorem invoice_post_deleted_customer_rejected_witness :
    dbW0.customers.find? (fun c => c.guid == reqDel.customer_guid) = some custWdel ∧
    custWdel.company_guid = 7 ∧ custWdel.deleted = true ∧
    (invoicePost dbW0 procPerm 7 reqDel = (dbW0, .badRequest) ∧
     ∀ (db2 : DB) (amount : Int) (fiu title ext aosa : Option String),
       ∃ m, InvoiceModel.create db2 custWdel amount fiu title ext aosa =
         .error (.ValidationError m)) :=
  ⟨by decide, rfl, rfl,
   invoice_post_deleted_customer_rejected dbW0 procPerm 7 reqDel custWdel
     (by decide) rfl rfl⟩

/-- C10: an empty-string funding_instrument_uri (and likewise empty
title, external_id, appears_on_statement_as) is normalized to None
before the core is invoked: the request behaves identically to one
omitting the fields, for every processor (hence no validation probe can
influence the outcome), no transaction row is created and no
submission phase runs. -/
theorem invoice_post_empty_string_normalized (db : DB) (proc proc2 : Processor)
    (company : Nat) (req : InvoiceCreateRequest) :
    invoicePost db proc company { req with funding_instrument_uri := some "" } =
      invoicePost db proc2 company { req with funding_instrument_uri := none } ∧
    (invoicePost db proc company
        { req with funding_instrument_uri := some "" }).1.transactions =
      db.transactions ∧
    invoicePost db proc company
        { req with funding_instrument_uri := some "", title := some "",
                   external_id := some "", appears_on_statement_as := some "" } =
      invoicePost db proc2 company
        { req with funding_instrument_uri := none, title := none,
                   external_id := none, appears_on_statement_as := none } := by
  refine ⟨?_, ?_, ?_⟩
  · unfold invoicePost
    simp [noneIfEmpty]
  · have hne : noneIfEmpty (some "") = none := by simp [noneIfEmpty]
    unfold invoicePost
    dsimp only
    rw [hne]
    cases hc : db.customers.find?
        (fun c => c.guid == req.customer_guid) with
    | none => rfl
    | some customer =>
      dsimp only
      split
      · rfl
      · split
        · rfl
        · rw [if_neg (by decide)]
          cases hcr : InvoiceModel.create db customer req.amount none
              (noneIfEmpty req.title) (noneIfEmpty req.external_id)
              (noneIfEmpty req.appears_on_statement_as) with
          | error e => rfl
          | ok r =>
            obtain ⟨db1, inv⟩ := r
            exact create_none_transactions db customer req.amount _ _ _ db1 inv hcr
  · unfold invoicePost
    simp [noneIfEmpty]

/-! ## Durability of phase (a) under phase (b) failures -/

theorem create_ok_spec (db : DB) (c : Customer) (amount : Int)
    (fiu title ext aosa : Option String) (db2 : DB) (inv : Invoice)
    (h : InvoiceModel.create db c amount fiu title ext aosa = .ok (db2, inv)) :
    db2.invoices = db.invoices ++ [inv] ∧ inv.guid = db.next_guid ∧
    inv.amount = amount ∧ inv.customer_guid = c.guid ∧
    (fiu = none → db2.transactions = db.transactions) ∧
    (∀ uri, fiu = some uri → db2.transactions = db.transactions ++
      [stagedRow db db.next_guid aosa amount uri]) := by
  unfold InvoiceModel.create at h
  by_cases h1 : amount ≤ 0
  · rw [if_pos h1] at h; cases h
  · rw [if_neg h1] at h
    by_cases h2 : c.deleted = true
    · rw [if_pos h2] at h; cases h
    · rw [if_neg h2] at h
      cases fiu with
      | none =>
        cases h
        exact ⟨rfl, rfl, rfl, rfl, fun _ => rfl,
          fun uri hu => Option.noConfusion hu⟩
      | some uri =>
        cases h
        refine ⟨rfl, rfl, rfl, rfl, fun hn => Option.noConfusion hn, ?_⟩
        intro uri2 hu
        cases hu
        rfl

theorem mem_of_map_core_append {l1 l2 : List Transaction} {row : Transaction}
    (h : l1.map Transaction.core = (l2 ++ [row]).map Transaction.core) :
    ∃ t ∈ l1, Transaction.core t = Transaction.core row := by
  have hm : Transaction.core row ∈ l1.map Transaction.core := by
    rw [h]; simp
  obtain ⟨t, ht, hc⟩ := List.mem_map.mp hm
  exact ⟨t, ht, hc⟩

/-- C1 (amended): phase (b) never rolls back or aborts phase (a).
Whenever the view reports success, the invoice row persisted by phase
(a) is present in the final store, and, when a funding instrument was
supplied, so is the DEBIT transaction row — same guid, invoice
reference, type, amount, funding instrument and statement descriptor
as staged, for every processor behaviour including declines and
permanent errors; phase (b) may update only the submission fields
(processor_uri, submit_status, status) of transaction rows. -/
theorem invoice_post_phase_a_durable (db : DB) (proc : Processor)
    (company g : Nat) (req : InvoiceCreateRequest) (db2 : DB)
    (h : invoicePost db proc company req = (db2, .created g)) :
    (∃ inv, db2.invoices = db.invoices ++ [inv] ∧ inv.guid = g ∧
      inv.amount = req.amount) ∧
    (∀ uri, noneIfEmpty req.funding_instrument_uri = some uri →
      db2.transactions.map Transaction.core =
        (db.transactions ++
          [stagedRow db g (noneIfEmpty req.appears_on_statement_as)
            req.amount uri]).map Transaction.core ∧
      ∃ t ∈ db2.transactions, t.guid = db.next_guid + 1 ∧ t.invoice_guid = g ∧
        t.transaction_type = .DEBIT ∧ t.amount = req.amount ∧
        t.funding_instrument_uri = some uri) := by
  unfold invoicePost at h
  dsimp only at h
  split at h
  · simp at h
  · rename_i customer hc
    split at h
    · simp at h
    · split at h
      · simp at h
      · split at h
        · simp at h
        · split at h
          · simp at h
          · rename_i r db1 inv hcr
            have hspec := create_ok_spec db customer req.amount _ _ _ _ db1 inv hcr
            split at h
            · rename_i hfiu
              simp only [Prod.mk.injEq, PostResponse.created.injEq] at h
              obtain ⟨hdb2, hg⟩ := h
              subst hdb2
              refine ⟨⟨inv, hspec.1, hg, hspec.2.2.1⟩, ?_⟩
              intro uri huri
              rw [hfiu] at huri
              cases huri
            · rename_i uri hfiu
              have htx := hspec.2.2.2.2.2 uri hfiu
              split at h
              · rename_i hempty
                exfalso
                have hmem : stagedRow db db.next_guid
                    (noneIfEmpty req.appears_on_statement_as) req.amount uri ∈
                    invoiceTransactions db1 inv.guid := by
                  unfold invoiceTransactions
                  rw [htx]
                  refine List.mem_filter.mpr ⟨by simp, ?_⟩
                  simp [stagedRow, hspec.2.1]
                rw [List.isEmpty_iff] at hempty
                rw [hempty] at hmem
                cases hmem
              · simp only [Prod.mk.injEq, PostResponse.created.injEq] at h
                obtain ⟨hdb2, hg⟩ := h
                subst hdb2
                have hgn : g = db.next_guid := by rw [← hg]; exact hspec.2.1
                have hframe := process_transactions_frame proc
                  (invoiceTransactions db1 inv.guid) db1
                have hmap : ((process_transactions proc db1
                    (invoiceTransactions db1 inv.guid)).transactions).map
                      Transaction.core =
                    (db.transactions ++
                      [stagedRow db g (noneIfEmpty req.appears_on_statement_as)
                        req.amount uri]).map Transaction.core := by
                  rw [hframe.1, htx, hgn]
                refine ⟨⟨inv, ?_, hg, hspec.2.2.1⟩, ?_⟩
                · rw [hframe.2.1, hspec.1]
                · intro uri2 huri2
                  rw [hfiu] at huri2
                  cases huri2
                  refine ⟨hmap, ?_⟩
                  obtain ⟨t, ht, hcore⟩ := mem_of_map_core_append hmap
                  simp only [stagedRow, Transaction.core, Prod.mk.injEq] at hcore
                  obtain ⟨e1, e2, e3, e4, e5, e6, e7, e8⟩ := hcore
                  exact ⟨t, ht, e1, e2, e4, e5, e6⟩

/-- C1 counterexample: at a concrete store, with a processor that
reports a Permanent decline, the invoice and DEBIT rows persist
(phase (a) survives), but the DEBIT row is not "unchanged in its staged
form": phase (b) set its submit status to FAILED and its settlement
status to FAILED, and appended a failure row. -/
theorem invoice_post_permanent_decline_not_staged :
    (invoicePost dbW0 procPerm 7 reqW).2 = .created 10 ∧
    (invoicePost dbW0 procPerm 7 reqW).1.invoices.map Invoice.guid = [10] ∧
    (invoicePost dbW0 procPerm 7 reqW).1.transactions.map
        (fun t => (t.guid, t.invoice_guid, t.transaction_type, t.amount,
                   t.submit_status, t.status)) =
      [(11, 10, TransactionType.DEBIT, (500 : Int),
        TransactionSubmitStatus.FAILED, some TransactionStatus.FAILED)] ∧
    ¬ (∀ t ∈ (invoicePost dbW0 procPerm 7 reqW).1.transactions,
        t.submit_status = TransactionSubmitStatus.STAGED) := by
  refine ⟨by decide, by decide, by rfl, ?_⟩
  intro hall
  have h2 : (invoicePost dbW0 procPerm 7 reqW).1.transactions.map
      (fun t => t.submit_status) = [TransactionSubmitStatus.FAILED] := by rfl
  have hmem : TransactionSubmitStatus.FAILED ∈
      (invoicePost dbW0 procPerm 7 reqW).1.transactions.map
        (fun t => t.submit_status) := by
    rw [h2]; simp
  obtain ⟨t, ht, he⟩ := List.mem_map.mp hmem
  have hst := hall t ht
  rw [hst] at he
  exact TransactionSubmitStatus.noConfusion he

/-- Witness for the amended phase-(a)-durability theorem: it applies at
the concrete permanent-decline run, whose success response discharges
the hypothesis. -/
theorem invoice_post_phase_a_durable_witness :
    invoicePost dbW0 procPerm 7 reqW = (dbPermFin, .created 10) ∧
    (∃ inv, dbPermFin.invoices = dbW0.invoices ++ [inv] ∧ inv.guid = 10 ∧
      inv.amount = reqW.amount) :=
  ⟨by decide,
   (invoice_post_phase_a_durable dbW0 procPerm 7 10 reqW dbPermFin (by decide)).1⟩

/-! ## Refund: greedy allocation bound and reference immutability -/

theorem refundedAgainst_eq (db : DB) (g : Nat) :
    refundedAgainst db g = refundSum db.transactions g := rfl

theorem refundSum_append (l1 l2 : List Transaction) (g : Nat) :
    refundSum (l1 ++ l2) g = refundSum l1 g + refundSum l2 g := by
  unfold refundSum
  rw [List.filter_append, List.map_append, List.sum_append]

theorem refundSum_cons (t : Transaction) (l : List Transaction) (g : Nat) :
    refundSum (t :: l) g =
      (if t.transaction_type == TransactionType.REFUND &&
          t.reference_to_guid == some g then t.amount else 0) + refundSum l g := by
  unfold refundSum
  rw [List.filter_cons]
  by_cases h : (t.transaction_type == TransactionType.REFUND &&
      t.reference_to_guid == some g) = true
  · rw [if_pos h, if_pos h, List.map_cons, List.sum_cons]
  · rw [if_neg h, if_neg h]
    simp

theorem targetSum_cons (pr : Transaction × Int) (l : List (Transaction × Int))
    (gg : Nat) :
    targetSum (pr :: l) gg =
      (if pr.1.guid == gg then pr.2 else 0) + targetSum l gg := by
  unfold targetSum
  rw [List.filter_cons]
  by_cases h : (pr.1.guid == gg) = true
  · rw [if_pos h, if_pos h, List.map_cons, List.sum_cons]
  · rw [if_neg h, if_neg h]
    simp

theorem mkRefunds_transactions :
    ∀ (allocs : List (Transaction × Int)) (db : DB) (g : Nat),
    (mkRefunds db g allocs).1.transactions =
      db.transactions ++ (mkRefunds db g allocs).2 := by
  intro allocs
  induction allocs with
  | nil => intro db g; simp [mkRefunds]
  | cons pr rest ih =>
    intro db g
    obtain ⟨d, amt⟩ := pr
    unfold mkRefunds
    dsimp only
    rw [ih]
    simp

theorem mkRefunds_mem :
    ∀ (allocs : List (Transaction × Int)) (db : DB) (g : Nat),
    ∀ t ∈ (mkRefunds db g allocs).2,
      t.transaction_type = TransactionType.REFUND ∧ t.status = none ∧
      t.submit_status = TransactionSubmitStatus.STAGED ∧
      ∃ pr ∈ allocs, t.reference_to_guid = some pr.1.guid ∧ t.amount = pr.2 ∧
        t.invoice_guid = g := by
  intro allocs
  induction allocs with
  | nil => intro db g t ht; simp [mkRefunds] at ht
  | cons pr rest ih =>
    intro db g t ht
    obtain ⟨d, amt⟩ := pr
    unfold mkRefunds at ht
    dsimp only at ht
    rcases List.mem_cons.mp ht with heq | hrest
    · subst heq
      exact ⟨rfl, rfl, rfl, ⟨(d, amt), List.mem_cons_self _ _, rfl, rfl, rfl⟩⟩
    · obtain ⟨h1, h2, h3, pr2, hpr2, h4⟩ := ih _ g t hrest
      exact ⟨h1, h2, h3, pr2, List.mem_cons_of_mem _ hpr2, h4⟩

theorem mkRefunds_refundSum :
    ∀ (allocs : List (Transaction × Int)) (db : DB) (g gg : Nat),
    refundSum (mkRefunds db g allocs).2 gg = targetSum allocs gg := by
  intro allocs
  induction allocs with
  | nil => intro db g gg; simp [mkRefunds, refundSum, targetSum]
  | cons pr rest ih =>
    intro db g gg
    obtain ⟨d, amt⟩ := pr
    unfold mkRefunds
    dsimp only
    rw [refundSum_cons, targetSum_cons, ih]
    by_cases hg : d.guid = gg <;> simp [hg]

theorem allocate_mem (db : DB) :
    ∀ (ds : List Transaction) (r : Int) (pr : Transaction × Int),
    pr ∈ allocate db ds r → pr.1 ∈ ds ∧ 0 < pr.2 ∧
      pr.2 ≤ pr.1.amount - refundedAgainst db pr.1.guid := by
  intro ds
  induction ds with
  | nil => intro r pr hpr; simp [allocate] at hpr
  | cons d rest ih =>
    intro r pr hpr
    unfold allocate at hpr
    split at hpr
    · simp at hpr
    · dsimp only at hpr
      split at hpr
      · obtain ⟨h1, h2, h3⟩ := ih r pr hpr
        exact ⟨List.mem_cons_of_mem _ h1, h2, h3⟩
      · rename_i hr hav
        rcases List.mem_cons.mp hpr with heq | htail
        · subst heq
          refine ⟨List.mem_cons_self _ _, ?_, ?_⟩
          · exact lt_min (by omega) (by omega)
          · exact min_le_left _ _
        · obtain ⟨h1, h2, h3⟩ := ih _ pr htail
          exact ⟨List.mem_cons_of_mem _ h1, h2, h3⟩

theorem allocate_targetSum_zero (db : DB) (ds : List Transaction) (r : Int)
    (gg : Nat) (h : ∀ d ∈ ds, d.guid ≠ gg) :
    targetSum (allocate db ds r) gg = 0 := by
  unfold targetSum
  have hnil : (allocate db ds r).filter (fun pr => pr.1.guid == gg) = [] := by
    rw [List.filter_eq_nil_iff]
    intro pr hpr
    have hm := allocate_mem db ds r pr hpr
    simp [h pr.1 hm.1]
  rw [hnil]
  simp

theorem allocate_targetSum_le (db : DB) :
    ∀ (ds : List Transaction) (r : Int) (d : Transaction),
    (ds.map Transaction.guid).Nodup →
    (∀ e ∈ ds, 0 ≤ e.amount - refundedAgainst db e.guid) →
    d ∈ ds →
    targetSum (allocate db ds r) d.guid ≤
      d.amount - refundedAgainst db d.guid := by
  intro ds
  induction ds with
  | nil => intro r d _ _ hd; simp at hd
  | cons e rest ih =>
    intro r d hnd hpos hd
    unfold allocate
    split
    · have := hpos d hd
      simp only [targetSum, List.filter_nil, List.map_nil, List.sum_nil]
      omega
    · dsimp only
      split
      · rename_i hr hav
        rcases List.mem_cons.mp hd with heq | htail
        · subst heq
          have hz : targetSum (allocate db rest r) d.guid = 0 := by
            apply allocate_targetSum_zero
            intro x hx hxg
            exact (List.nodup_cons.mp hnd).1 (hxg ▸ List.mem_map_of_mem _ hx)
          rw [hz]
          exact hpos d hd
        · exact ih r d (List.nodup_cons.mp hnd).2
            (fun x hx => hpos x (List.mem_cons_of_mem _ hx)) htail
      · rename_i hr hav
        rcases List.mem_cons.mp hd with heq | htail
        · subst heq
          rw [targetSum_cons]
          have hz : targetSum (allocate db rest
              (r - min (d.amount - refundedAgainst db d.guid) r)) d.guid = 0 := by
            apply allocate_targetSum_zero
            intro x hx hxg
            exact (List.nodup_cons.mp hnd).1 (hxg ▸ List.mem_map_of_mem _ hx)
          rw [hz]
          simp only [beq_self_eq_true, if_true, add_zero]
          exact min_le_left _ _
        · rw [targetSum_cons]
          have hne : (e.guid == d.guid) = false := by
            have hmem : d.guid ∈ rest.map Transaction.guid :=
              List.mem_map_of_mem _ htail
            have hneq : e.guid ≠ d.guid :=
              fun hcontra => (List.nodup_cons.mp hnd).1 (hcontra ▸ hmem)
            simp [hneq]
          rw [hne]
          simp only [Bool.false_eq_true, if_false, zero_add]
          exact ih _ d (List.nodup_cons.mp hnd).2
            (fun x hx => hpos x (List.mem_cons_of_mem _ hx)) htail

theorem settledDebits_mem (db : DB) (g : Nat) (d : Transaction)
    (h : d ∈ settledDebits db g) :
    d ∈ db.transactions ∧ d.invoice_guid = g ∧
    d.transaction_type = TransactionType.DEBIT ∧
    d.status = some TransactionStatus.SUCCEEDED := by
  unfold settledDebits at h
  obtain ⟨hmem, hpred⟩ := List.mem_filter.mp h
  simp only [Bool.and_eq_true, beq_iff_eq] at hpred
  exact ⟨hmem, hpred.1.1, hpred.1.2, hpred.2⟩

theorem settledDebits_guid_nodup (db : DB) (g : Nat) (h : guidsNodup db) :
    ((settledDebits db g).map Transaction.guid).Nodup :=
  h.sublist ((List.filter_sublist db.transactions).map Transaction.guid)

/-- C7: a settled debit may be referenced by multiple partial REFUND
transactions across multiple refund calls, but the cumulative refunded
amount recorded against it never exceeds its settled amount: under the
primary-key and refund-bound invariants a successful refund call
preserves the bound.  Each REFUND's reference target is set at
creation (to a settled debit of the invoice) and is immutable
thereafter: refund only appends rows (existing rows, including their
reference targets, are untouched), and neither transaction processing
nor event application changes any row's reference target. -/
theorem refund_bound_and_reference_immutable (db : DB) (g : Nat) (amount : Int)
    (db2 : DB) (ts : List Transaction)
    (hnd : guidsNodup db) (hinv : refundBoundInvariant db)
    (h : InvoiceModel.refund db g amount = .ok (db2, ts)) :
    refundBoundInvariant db2 ∧
    db2.transactions = db.transactions ++ ts ∧
    (∀ t ∈ ts, t.transaction_type = TransactionType.REFUND ∧
      ∃ d ∈ settledDebits db g, t.reference_to_guid = some d.guid) ∧
    (∀ p l, ((process_transactions p db l).transactions).map
        (fun s => (s.guid, s.reference_to_guid)) =
      db.transactions.map (fun s => (s.guid, s.reference_to_guid))) ∧
    (∀ g2 pid st occ, ((apply_event db g2 pid st occ).transactions).map
        (fun s => (s.guid, s.reference_to_guid)) =
      db.transactions.map (fun s => (s.guid, s.reference_to_guid))) := by
  unfold InvoiceModel.refund at h
  split at h
  · cases h
  · dsimp only at h
    split at h
    · cases h
    · injection h with heq
      have hdb2 : (mkRefunds db g (allocate db (settledDebits db g) amount)).1 = db2 :=
        congrArg Prod.fst heq
      have hts : (mkRefunds db g (allocate db (settledDebits db g) amount)).2 = ts :=
        congrArg Prod.snd heq
      have hproj : ∀ a b : Transaction, Transaction.core a = Transaction.core b →
          (a.guid, a.reference_to_guid) = (b.guid, b.reference_to_guid) := by
        intro a b hab
        simp only [Transaction.core, Prod.mk.injEq] at hab
        obtain ⟨e1, e2, e3, e4, e5, e6, e7, e8⟩ := hab
        simp [e1, e3]
      have htrans : db2.transactions = db.transactions ++ ts := by
        rw [← hdb2, ← hts, mkRefunds_transactions]
      have hmemts : ∀ t ∈ ts,
          t.transaction_type = TransactionType.REFUND ∧ t.status = none ∧
          t.submit_status = TransactionSubmitStatus.STAGED ∧
          ∃ pr ∈ allocate db (settledDebits db g) amount,
            t.reference_to_guid = some pr.1.guid ∧ t.amount = pr.2 ∧
            t.invoice_guid = g := by
        intro t ht
        exact mkRefunds_mem (allocate db (settledDebits db g) amount) db g t
          (by rw [hts]; exact ht)
      refine ⟨?_, htrans, ?_, ?_, ?_⟩
      · intro d hd hdeb hsucc
        rw [htrans] at hd
        rcases List.mem_append.mp hd with hdb | hnew
        · have hra : refundedAgainst db2 d.guid =
              refundedAgainst db d.guid +
                targetSum (allocate db (settledDebits db g) amount) d.guid := by
            rw [refundedAgainst_eq, htrans, refundSum_append, ← refundedAgainst_eq,
              ← hts, mkRefunds_refundSum]
          by_cases hdin : d ∈ settledDebits db g
          · have hb := allocate_targetSum_le db (settledDebits db g) amount d
              (settledDebits_guid_nodup db g hnd)
              (fun e he => by
                have hsp := settledDebits_mem db g e he
                have hie := hinv e hsp.1 hsp.2.2.1 hsp.2.2.2
                omega)
              hdin
            rw [hra]
            omega
          · have hz : targetSum (allocate db (settledDebits db g) amount) d.guid = 0 := by
              apply allocate_targetSum_zero
              intro x hx hxg
              have hx2 := (settledDebits_mem db g x hx).1
              have hxd : x = d := List.inj_on_of_nodup_map hnd hx2 hdb hxg
              exact hdin (hxd ▸ hx)
            have hie := hinv d hdb hdeb hsucc
            rw [hra, hz]
            omega
        · obtain ⟨ht1, _, _, _⟩ := hmemts d hnew
          rw [ht1] at hdeb
          cases hdeb
      · intro t ht
        obtain ⟨ht1, _, _, pr, hpr, href, _, _⟩ := hmemts t ht
        exact ⟨ht1, pr.1, (allocate_mem db _ _ pr hpr).1, href⟩
      · intro p l
        exact map_eq_of_core _ hproj _ _ (process_transactions_frame p l db).1
      · intro g2 pid st occ
        exact map_eq_of_core _ hproj _ _ (apply_event_frame db g2 pid st occ).1

/-- Witness: two partial refunds against the same settled debit across
two calls.  `dbRef` already holds an earlier 400 refund referencing
debit 5; the second call refunds 300 more; the cumulative 700 stays
within the settled 1000 and every conclusion is evaluated concretely. -/
theorem refund_bound_and_reference_immutable_witness :
    guidsNodup dbRef ∧ refundBoundInvariant dbRef ∧
    InvoiceModel.refund dbRef 3 300 = .ok (dbRefFin, [refNewW]) ∧
    refundedAgainst dbRefFin 5 = 700 ∧ (700 : Int) ≤ 1000 ∧
    (refundBoundInvariant dbRefFin ∧
     dbRefFin.transactions = dbRef.transactions ++ [refNewW] ∧
     (∀ t ∈ [refNewW], t.transaction_type = TransactionType.REFUND ∧
       ∃ d ∈ settledDebits dbRef 3, t.reference_to_guid = some d.guid) ∧
     (∀ p l, ((process_transactions p dbRef l).transactions).map
         (fun s => (s.guid, s.reference_to_guid)) =
       dbRef.transactions.map (fun s => (s.guid, s.reference_to_guid))) ∧
     (∀ g2 pid st occ, ((apply_event dbRef g2 pid st occ).transactions).map
         (fun s => (s.guid, s.reference_to_guid)) =
       dbRef.transactions.map (fun s => (s.guid, s.reference_to_guid)))) :=
  ⟨by decide, by decide, by rfl, by decide, by decide,
   refund_bound_and_reference_immutable dbRef 3 300 dbRefFin [refNewW]
     (by decide) (by decide) (by rfl)⟩

end Billy
